import Mathlib

/-!
Shallow embedding of the collection scheduler (`agent.py`, class `AgentRunner`)
and of the bundled IBM WAS check (`ibm_was.py`, class `IbmWasCheck`) of the
datadog-unix-agent repository, together with theorems settling the frozen
claims about them.

Timestamps (`time.monotonic()`) are modelled as integers.  Python exceptions
are modelled with `Except`; the exception classes that cross the modelled
boundaries form the inductive `PyExn`.  Components of the repository that are
not part of the given sources (the `metrics` module constants, the base-class
`AgentCheck.normalize`, the `Collector`) are modelled from the specification
and carry a doc comment saying so.
-/

namespace Sched

/-- Environment of one scheduler cycle: the monotonic clock value read at the
start of the cycle (`agent.py` line 64), the value of the stop event observed
at loop-top (line 62), and whether each fallible step of the cycle — building
and submitting the metadata payload (lines 67-68), the check batch (line 71),
serialize-and-push (line 72) — would raise when invoked. -/
structure CycleEnv where
  now : Int
  stop_set : Bool
  meta_raises : Bool
  checks_raise : Bool
  push_raises : Bool
deriving Repr, DecidableEq

/-- Observable record of one executed cycle: `attempted` is the `start_event`
flag passed to `get_metadata` when metadata was due (none when not due);
`submitted` is that flag for a submission that returned successfully;
`checks_ran` / `pushed` record the steps that returned normally;
`logged_exception` records the `except Exception: log.exception(...)` handler
firing (`agent.py` lines 73-74); `slept` records the `time.sleep` at line 76. -/
structure CycleLog where
  attempted : Option Bool
  submitted : Option Bool
  checks_ran : Bool
  pushed : Bool
  logged_exception : Bool
  slept : Bool
deriving Repr, DecidableEq

/-- Embeds the metadata-due test of `agent.py` line 66:
`self._meta_ts is None or (current_ts - self._meta_ts) >= host_metadata_interval`. -/
def metadataDue (interval : Int) (meta_ts : Option Int) (now : Int) : Bool :=
  match meta_ts with
  | none => true
  | some ts => decide (now - ts ≥ interval)

/-- Embeds the body of the `while` loop of `AgentRunner.collection`
(`agent.py` lines 63-76) for one cycle: given the recorded metadata timestamp
`_meta_ts` and the cycle environment, returns the new `_meta_ts` and the
cycle's observable log.  The `try` block runs metadata (when due), then the
check batch, then serialize-and-push; the first raising step aborts the rest
of the block; the handler catches and logs; the sleep runs outside the `try`
and always executes. -/
def runCycle (interval : Int) (meta_ts : Option Int) (env : CycleEnv) :
    Option Int × CycleLog :=
  if metadataDue interval meta_ts env.now then
    let st := meta_ts.isNone
    if env.meta_raises then
      (meta_ts, ⟨some st, none, false, false, true, true⟩)
    else if env.checks_raise then
      (some env.now, ⟨some st, some st, false, false, true, true⟩)
    else if env.push_raises then
      (some env.now, ⟨some st, some st, true, false, true, true⟩)
    else
      (some env.now, ⟨some st, some st, true, true, false, true⟩)
  else
    if env.checks_raise then
      (meta_ts, ⟨none, none, false, false, true, true⟩)
    else if env.push_raises then
      (meta_ts, ⟨none, none, true, false, true, true⟩)
    else
      (meta_ts, ⟨none, none, true, true, false, true⟩)

/-- Embeds `AgentRunner.collection` (`agent.py` lines 61-76) over a finite
trace of per-cycle environments: the loop exits when the stop event is
observed set at loop-top, otherwise it executes one cycle and continues.
Returns the logs of the executed cycles and the final `_meta_ts`. -/
def collection (interval : Int) (meta_ts : Option Int) :
    List CycleEnv → List CycleLog × Option Int
  | [] => ([], meta_ts)
  | env :: rest =>
    if env.stop_set then ([], meta_ts)
    else
      let r := runCycle interval meta_ts env
      let rec_result := collection interval r.1 rest
      (r.2 :: rec_result.1, rec_result.2)

/-- State of the `AgentRunner` thread object relevant to shutdown: the
`threading.Event` `_event` and the `_meta_ts` field. -/
structure RunnerState where
  event_set : Bool
  meta_ts : Option Int
deriving Repr, DecidableEq

/-- Embeds `AgentRunner.stop` (`agent.py` lines 78-80): logs and sets the
event; nothing blocks and nothing else changes. -/
def stop (s : RunnerState) : RunnerState := ⟨true, s.meta_ts⟩

end Sched

namespace IbmWas

/-- Python `dict` lookup `d.get(k)`: the value of the first binding of the
key, `None` when the key is absent.  (Bindings built by `dinsert` hold at
most one binding per key, as a Python `dict` does.) -/
def dlookup {α : Type} (d : List (String × α)) (k : String) : Option α :=
  match d with
  | [] => none
  | p :: rest => if p.1 == k then some p.2 else dlookup rest k

/-- Python `dict` assignment `d[k] = v`: overwrites the value of an existing
key in place (preserving insertion order) or appends a new key at the end. -/
def dinsert {α : Type} (d : List (String × α)) (k : String) (v : α) :
    List (String × α) :=
  if d.any (fun p => p.1 == k) then
    d.map (fun p => if p.1 == k then (k, v) else p)
  else d ++ [(k, v)]

/-- Python `dict(a, **b)`: a copy of `a` updated with every binding of `b`
in order; bindings of `b` win on key collision. -/
def dmerge {α : Type} (a b : List (String × α)) : List (String × α) :=
  b.foldl (fun d p => dinsert d p.1 p.2) a

/-- Kinds of metric samples the check can emit, standing for the bound
emitter methods `self.gauge`, `self.monotonic_count`, `self.rate`. -/
inductive MetricKind where
  | GAUGE
  | MONOTONIC_COUNT
  | RATE
deriving Repr, DecidableEq

/-- Python exception classes crossing the boundaries modelled here.
`ETParseError` is `xml.etree.ElementTree.ParseError` (imported at
`ibm_was.py` line 4); `XMLSyntaxError` is `lxml.etree.XMLSyntaxError`, a
distinct class that does not derive from `ETParseError`. -/
inductive PyExn where
  | ValueError
  | ConnectionError
  | HTTPError
  | XMLSyntaxError
  | ETParseError
deriving Repr, DecidableEq

/-- Service-check statuses used by the check: `AgentCheck.OK` and
`AgentCheck.CRITICAL`. -/
inductive SCStatus where
  | OK
  | CRITICAL
deriving Repr, DecidableEq

/-- Element of the parsed statistics document: a tag, attributes, and child
elements in document order. -/
inductive StatNode where
  | mk (tag : String) (attrs : List (String × String)) (children : List StatNode)

/-- Tag of an element. -/
def StatNode.tag : StatNode → String
  | .mk t _ _ => t

/-- Attributes of an element. -/
def StatNode.attrs : StatNode → List (String × String)
  | .mk _ a _ => a

/-- Child elements of an element, in document order. -/
def StatNode.children : StatNode → List StatNode
  | .mk _ _ c => c

/-- Attribute lookup `element.get(key)` (lxml): `None` when absent. -/
def StatNode.get (n : StatNode) (k : String) : Option String := dlookup n.attrs k

/-- Python `'{0}'.format(x)` of an optional attribute value: `None` prints
as the string `None`. -/
def pyStr : Option String → String
  | some s => s
  | none => "None"

/-- Python truthiness of `self.url` (an optional string): `None` and the
empty string are falsy. -/
def pyTruthy : Option String → Bool
  | none => false
  | some s => s ≠ ""

/-- Raw response body handed to `lxml.etree.fromstring`: modelled by its
parse outcome, either a well-formed document with a root element or a
malformed document. -/
inductive RawDoc where
  | wellFormed (root : StatNode)
  | malformed

/-- lxml library semantics of `etree.fromstring` (`ibm_was.py` line 79): the
root element of a well-formed document, and `lxml.etree.XMLSyntaxError`
raised on malformed input. -/
def fromstring : RawDoc → Except PyExn StatNode
  | .wellFormed root => .ok root
  | .malformed => .error .XMLSyntaxError

/-- Python semantics of the handler `except ParseError` at `ibm_was.py`
line 80: an exception is caught iff it is an instance of
`xml.etree.ElementTree.ParseError`.  `lxml.etree.XMLSyntaxError` derives from
`lxml.etree.LxmlSyntaxError` and the built-in `SyntaxError`, not from
`xml.etree.ElementTree.ParseError`, so it is not an instance. -/
def caughtByParseErrorHandler : PyExn → Bool
  | .ETParseError => true
  | _ => false

/-- Custom query descriptor (`ibm_was.py` lines 169-180).  The shape enforced
by `validation.validate_query` — required keys `stat` and the metric prefix,
optional `tag_keys` defaulting to the empty list — is enforced here by the
structure itself. -/
structure CustomQuery where
  stat : String
  metric_pfx : String
  tag_keys : List String
deriving Repr, DecidableEq

/-- Fields of the check's instance configuration mapping read by the embedded
logic.  `collect_toggle` holds the values of the per-category
`collect_<prefix>_stats` options; absent keys default to true. -/
structure InstanceCfg where
  servlet_url : Option String
  custom_queries : List CustomQuery
  custom_queries_units_gauge : List String
  tags : List String
  collect_toggle : List (String × Bool)
deriving Repr, DecidableEq

/-- Modelled from the spec: `metrics.METRIC_CATEGORIES` (the `metrics` module
is not among the sources), the built-in category-name → metric-prefix map.
The spec posits built-in defaults without listing them and its §8 scenario
exercises the built-in prefix `jvm`; one representative built-in entry is
used. -/
def METRIC_CATEGORIES : List (String × String) := [("JVM Runtime", "jvm")]

/-- Modelled from the spec: `metrics.NESTED_TAGS` (the `metrics` module is
not among the sources), the built-in metric-prefix → tag-key-list map used
during recursive descent.  The spec's §8 scenario gives the `jvm` prefix the
tag-key list `[]`. -/
def NESTED_TAGS : List (String × List String) := [("jvm", [])]

/-- Modelled from the spec: `metrics.METRIC_VALUE_FIELDS` (the `metrics`
module is not among the sources) maps each recognized leaf metric type tag to
the name of the attribute holding its value.  The leaf type tags are the keys
of the dispatch table built at `ibm_was.py` lines 25-32; the spec's StatNode
carries one value attribute, modelled under the attribute name `value` for
every leaf type. -/
def METRIC_VALUE_FIELDS : String → Option String
  | "AverageStatistic" => some "value"
  | "BoundedRangeStatistic" => some "value"
  | "CountStatistic" => some "value"
  | "DoubleStatistic" => some "value"
  | "RangeStatistic" => some "value"
  | "TimeStatistic" => some "value"
  | _ => none

/-- Modelled from the spec: `metrics.CATEGORY_FIELDS` (the `metrics` module
is not among the sources), the recognized interior category element tags; the
document's interior nodes are `Stat` elements (`ibm_was.py` docstring at
lines 116-120 and the XPath at line 105). -/
def CATEGORY_FIELDS : List String := ["Stat"]

/-- Embeds `self.metric_type_mapping` (`ibm_was.py` lines 25-32), with each
bound emitter method represented by the kind of sample it emits. -/
def metric_type_mapping : String → Option MetricKind
  | "AverageStatistic" => some .GAUGE
  | "BoundedRangeStatistic" => some .GAUGE
  | "CountStatistic" => some .MONOTONIC_COUNT
  | "DoubleStatistic" => some .RATE
  | "RangeStatistic" => some .GAUGE
  | "TimeStatistic" => some .GAUGE
  | _ => none

/-- Helper of `normalize`: lower-case alphanumeric characters are kept and
every maximal run of non-alphanumeric characters becomes one underscore; the
flag records being inside such a run. -/
def collapseChars : List Char → Bool → List Char
  | [], _ => []
  | c :: cs, inRun =>
    if c.isAlphanum then c.toLower :: collapseChars cs false
    else if inRun then collapseChars cs true
    else '_' :: collapseChars cs true

/-- Modelled from the spec: `AgentCheck.normalize` (the `checks` base class
is not among the sources); spec §4.3: the raw name is lower-cased with
non-alphanumeric runs collapsed to single separators, and the metric prefix
is prepended. -/
def normalize (name : String) (pfx : String) : String :=
  pfx ++ "." ++ String.mk (collapseChars name.toList false)

/-- Side-channel outputs of one check execution, in emission order:
metric samples, the numeric gauge emitted by `submit_service_checks`, service
checks, `self.warning` calls and `self.log.error` calls. -/
inductive Emission where
  | metric (kind : MetricKind) (name : String) (value : Option String) (tags : List String)
  | gaugeNum (name : String) (value : Nat) (tags : List String)
  | serviceCheck (name : String) (status : SCStatus) (tags : List String)
  | warnLog
  | errorLog
deriving Repr, DecidableEq

/-- Fields of a constructed `IbmWasCheck` read by the check logic
(`ibm_was.py` lines 33-40). -/
structure CheckCfg where
  url : Option String
  custom_queries : List CustomQuery
  custom_queries_units_gauge : List String
  custom_tags : List String
  collect_stats : List (String × Bool)
  nested_tags : List (String × List String)
  metric_categories : List (String × String)
  custom_stats : List String
  service_check_tags : List String
deriving Repr, DecidableEq

/-- Embeds `setup_configured_stats` (`ibm_was.py` lines 182-186): for every
built-in category, record `True` when its `collect_<prefix>_stats` option is
affirmative (default true). -/
def setup_configured_stats (inst : InstanceCfg) : List (String × Bool) :=
  METRIC_CATEGORIES.foldl
    (fun acc cp =>
      if (dlookup inst.collect_toggle cp.2).getD true then dinsert acc cp.1 true
      else acc)
    []

/-- Embeds `append_custom_queries` (`ibm_was.py` lines 169-180): one pass
over the custom queries builds the custom category and recursion-tag dicts
and marks each custom stat as collected; the result merges the built-in
defaults with the custom dicts (custom bindings win).  The third component
carries the `self.collect_stats[query['stat']] = True` updates performed
inside the loop. -/
def append_custom_queries (qs : List CustomQuery) (collect : List (String × Bool)) :
    List (String × List String) × List (String × String) × List (String × Bool) :=
  let r := qs.foldl
    (fun acc q =>
      (dinsert acc.1 q.stat q.metric_pfx,
       dinsert acc.2.1 q.metric_pfx q.tag_keys,
       dinsert acc.2.2 q.stat true))
    ([], [], collect)
  (dmerge NESTED_TAGS r.2.1, dmerge METRIC_CATEGORIES r.1, r.2.2)

/-- Embeds the part of `IbmWasCheck.__init__` read by the check logic
(`ibm_was.py` lines 33-40): option extraction, configured stats, the merged
category and recursion-tag maps, `custom_stats = set(self.nested_tags)` (the
key set of the merged recursion-tag map), and the service-check tags. -/
def mkCheck (inst : InstanceCfg) : CheckCfg :=
  let collect0 := setup_configured_stats inst
  let r := append_custom_queries inst.custom_queries collect0
  ⟨inst.servlet_url,
   inst.custom_queries,
   inst.custom_queries_units_gauge,
   inst.tags,
   r.2.2,
   r.1,
   r.2.1,
   r.1.map Prod.fst,
   inst.tags ++ ["url:" ++ pyStr inst.servlet_url]⟩

/-- Embeds `submit_service_checks` (`ibm_was.py` lines 165-167): a gauge of
1 for OK and 0 otherwise, then the service check itself, both under
`SERVICE_CHECK_CONNECT` with the service-check tags. -/
def submit_service_checks (cfg : CheckCfg) (value : SCStatus) : List Emission :=
  [.gaugeNum "ibm_was.can_connect" (if value = SCStatus.OK then 1 else 0)
     cfg.service_check_tags,
   .serviceCheck "ibm_was.can_connect" value cfg.service_check_tags]

/-- Embeds `submit_metrics` (`ibm_was.py` lines 132-150) as the list of
samples emitted for one leaf element: the value attribute named by
`METRIC_VALUE_FIELDS`, the normalized metric name, the dispatch-key remap of
`CountStatistic` to `TimeStatistic` when the unit is in the configured gauge
set and the prefix is in `custom_stats`, the dispatched sample, and the
second always-gauge sample under the `_gauge` suffix for the `jvm` prefix. -/
def submit_metrics (cfg : CheckCfg) (child : StatNode) (pfx : String)
    (tags : List String) : List Emission :=
  match METRIC_VALUE_FIELDS child.tag with
  | none => []
  | some vfield =>
    let value := child.get vfield
    let metric_name := normalize (pyStr (child.get "name")) ("ibm_was." ++ pfx)
    let tag :=
      if ((child.get "unit").elim false
            (fun u => cfg.custom_queries_units_gauge.contains u))
          ∧ pfx ∈ cfg.custom_stats ∧ child.tag = "CountStatistic"
      then "TimeStatistic" else child.tag
    let first :=
      match metric_type_mapping tag with
      | some k => [Emission.metric k metric_name value tags]
      | none => []
    first ++
      (if pfx = "jvm" then
        [Emission.metric .GAUGE (metric_name ++ "_gauge") value tags]
      else [])

/-- Kind of the sample `submit_metrics` dispatches for a leaf element
(`ibm_was.py` lines 138-145), read off the same remap rule: the `.getD`
default is never reached for a recognized leaf type. -/
def dispatchedKind (cfg : CheckCfg) (child : StatNode) (pfx : String) : MetricKind :=
  if ((child.get "unit").elim false
        (fun u => cfg.custom_queries_units_gauge.contains u))
      ∧ pfx ∈ cfg.custom_stats ∧ child.tag = "CountStatistic"
  then MetricKind.GAUGE
  else (metric_type_mapping child.tag).getD MetricKind.GAUGE

/-- Embeds the tag-set computation for recursing into an interior category
child (`ibm_was.py` lines 125-129): the tag-key list configured for the
prefix, when it has an entry at the current recursion level, contributes
`<tag-key-at-level>:<child-name>`.  An absent list (`None`) and an empty list
are both falsy in the source's `if tag_list and len(tag_list) > recursion_level`;
an empty list never has an entry at any level, so the length test alone is
equivalent. -/
def recursionTags (cfg : CheckCfg) (pfx : String) (tags : List String)
    (lvl : Nat) (child : StatNode) : List String :=
  match dlookup cfg.nested_tags pfx with
  | none => tags
  | some tag_list =>
    if lvl < tag_list.length then
      tags ++ [tag_list.getD lvl "" ++ ":" ++ pyStr (child.get "name")]
    else tags

mutual

/-- Embeds `process_stats` (`ibm_was.py` lines 115-130): the recursive
depth-first walk over one category element's children. -/
def process_stats (cfg : CheckCfg) : StatNode → String → List String → Nat → List Emission
  | .mk _ _ cs, pfx, tags, lvl => processChildren cfg cs pfx tags lvl

/-- Iteration `for child in stats` of `process_stats`, in document order:
a child whose tag is a leaf metric type is submitted; a child whose tag is an
interior category type is recursed into at level+1 with the recursion tags;
any other child is ignored. -/
def processChildren (cfg : CheckCfg) : List StatNode → String → List String → Nat → List Emission
  | [], _, _, _ => []
  | child :: rest, pfx, tags, lvl =>
    (if (METRIC_VALUE_FIELDS child.tag).isSome then
      submit_metrics cfg child pfx tags
    else if child.tag ∈ CATEGORY_FIELDS then
      process_stats cfg child pfx (recursionTags cfg pfx tags lvl child) (lvl + 1)
    else []) ++ processChildren cfg rest pfx tags lvl

end

mutual

/-- Descendant elements of an element in document order (XPath `.//`),
excluding the element itself. -/
def descendants : StatNode → List StatNode
  | .mk _ _ cs => descendantsList cs

/-- Descendants of a forest: each root followed by its own descendants. -/
def descendantsList : List StatNode → List StatNode
  | [] => []
  | c :: rest => c :: (descendants c ++ descendantsList rest)

end

/-- XPath `normalize-space`: leading and trailing whitespace stripped and
internal whitespace runs collapsed to single spaces. -/
def normalizeSpace (s : String) : String :=
  " ".intercalate ((s.split Char.isWhitespace).filter (fun t => t ≠ ""))

/-- Embeds `get_node_from_name` (`ibm_was.py` lines 102-110): the first
descendant `Stat` element whose normalized `name` attribute equals the path
(XPath `.//Stat[normalize-space(@name)="path"]`; a missing attribute reads as
the empty string), or `None` with a warning emitted by the caller's match. -/
def get_node_from_name (xml_data : StatNode) (path : String) : Option StatNode :=
  ((descendants xml_data).filter
      (fun n => n.tag == "Stat"
        && normalizeSpace ((n.get "name").getD "") == path)).head?

/-- Embeds `get_node_from_root` (`ibm_was.py` lines 112-113):
`findall` over direct children with the given tag. -/
def get_node_from_root (xml_data : StatNode) (path : String) : List StatNode :=
  xml_data.children.filter (fun n => n.tag == path)

/-- Outcome of `requests.get(self.url, **self.http_options)` followed by
`resp.raise_for_status()` (`ibm_was.py` lines 154-155): a body on a 2xx
response, a `requests.ConnectionError`, or a `requests.HTTPError` on a
non-2xx status. -/
inductive FetchOutcome where
  | success (doc : RawDoc)
  | connectionError
  | httpError

/-- Embeds `make_request` (`ibm_was.py` lines 152-163): on success the OK
service check is submitted and the body returned; on `requests.HTTPError` or
`requests.ConnectionError` a warning is logged, the CRITICAL service check is
submitted, and the caught exception is re-raised (`raise e`). -/
def make_request (cfg : CheckCfg) : FetchOutcome → Except PyExn RawDoc × List Emission
  | .success doc => (.ok doc, submit_service_checks cfg .OK)
  | .connectionError =>
    (.error .ConnectionError, .warnLog :: submit_service_checks cfg .CRITICAL)
  | .httpError =>
    (.error .HTTPError, .warnLog :: submit_service_checks cfg .CRITICAL)

/-- Embeds the per-category step of `check` (`ibm_was.py` lines 96-100): when
the category is recorded in `collect_stats`, find its `Stat` element under
the server and walk it at recursion level 0; a missing element produces the
warning of `get_node_from_name` and no samples. -/
def checkCategory (cfg : CheckCfg) (server : StatNode) (server_tags : List String)
    (cat : String) (pfx : String) : List Emission :=
  if (dlookup cfg.collect_stats cat).getD false then
    match get_node_from_name server cat with
    | some stats => process_stats cfg stats pfx server_tags 0
    | none => [.warnLog]
  else []

/-- Embeds the per-server step of `check` (`ibm_was.py` lines 92-100):
`server:<name>` is prepended to the node tags and every configured category
is processed in the merged map's order. -/
def checkServer (cfg : CheckCfg) (node_tags : List String) (server : StatNode) :
    List Emission :=
  let server_tags := ("server:" ++ pyStr (server.get "name")) :: node_tags
  cfg.metric_categories.flatMap
    (fun cp => checkCategory cfg server server_tags cp.1 cp.2)

/-- Embeds the per-node step of `check` (`ibm_was.py` lines 87-100): the
custom tags plus `node:<name>`, then every `Server` child. -/
def checkNode (cfg : CheckCfg) (node : StatNode) : List Emission :=
  let node_tags := cfg.custom_tags ++ ["node:" ++ pyStr (node.get "name")]
  (get_node_from_root node "Server").flatMap (checkServer cfg node_tags)

/-- Embeds `IbmWasCheck.check` (`ibm_was.py` lines 72-100): a falsy URL
raises `ValueError`; `make_request` may re-raise; the parse of the body
raises on malformed input and the `except ParseError` handler catches only
instances of `xml.etree.ElementTree.ParseError` (submitting CRITICAL, logging
the error and returning); a parsed document is walked per `Node`, per
`Server`, per configured category.  Returns the control outcome (normal
return or uncaught exception) and the emissions in order. -/
def check (cfg : CheckCfg) (fetch : FetchOutcome) : Except PyExn Unit × List Emission :=
  if pyTruthy cfg.url then
    match make_request cfg fetch with
    | (.error e, ems) => (.error e, ems)
    | (.ok data, ems) =>
      match fromstring data with
      | .error e =>
        if caughtByParseErrorHandler e then
          (.ok (), ems ++ submit_service_checks cfg .CRITICAL ++ [.errorLog])
        else (.error e, ems)
      | .ok root =>
        (.ok (), ems ++ (get_node_from_root root "Node").flatMap (checkNode cfg))
  else (.error .ValueError, [])

/-- Modelled from the spec: `Collector.run_checks` (the `collector` module is
not among the sources) "executes all configured checks, isolating per-check
failures internally" (spec §6): every scheduled check run is executed and its
emissions collected; a run that ends in an exception is contained, and the
batch itself returns normally to the scheduler. -/
def collector_run_checks (runs : List (Except PyExn Unit × List Emission)) :
    List Emission :=
  runs.flatMap (fun r => r.2)

/-- Predicate named by the spec (§4.3 and design note): a metric prefix "is a
custom-extended category" when it is the metric prefix of one of the
user-supplied custom queries. -/
def isCustomExtended (qs : List CustomQuery) (pfx : String) : Bool :=
  qs.any (fun q => q.metric_pfx == pfx)

mutual

/-- Translator walk transcribed from the spec's wording (§4.3, claim C7),
for comparison with `process_stats`: children are processed in document
order; a leaf emits its samples; an interior category child is recursed into
at depth+1, with the tag set extended by `<tag-key-at-depth>:<child-name>`
exactly when the tag-key list configured for the prefix exists and has an
entry at the current recursion depth; other children are ignored. -/
def specWalk (cfg : CheckCfg) : StatNode → String → List String → Nat → List Emission
  | .mk _ _ cs, pfx, tags, depth => specWalkChildren cfg cs pfx tags depth

/-- Child iteration of `specWalk`, in document order. -/
def specWalkChildren (cfg : CheckCfg) : List StatNode → String → List String → Nat → List Emission
  | [], _, _, _ => []
  | child :: rest, pfx, tags, depth =>
    (if (METRIC_VALUE_FIELDS child.tag).isSome then
      submit_metrics cfg child pfx tags
    else if child.tag ∈ CATEGORY_FIELDS then
      let newTags :=
        match (dlookup cfg.nested_tags pfx).bind (fun l => l[depth]?) with
        | some key => tags ++ [key ++ ":" ++ pyStr (child.get "name")]
        | none => tags
      specWalk cfg child pfx newTags (depth + 1)
    else []) ++ specWalkChildren cfg rest pfx tags depth

end

/-- Value of the last binding of a key in a list of bindings (the binding a
Python `dict` built from those bindings in order would hold). -/
def rlookup {α : Type} (d : List (String × α)) (k : String) : Option α :=
  dlookup d.reverse k

/-- Instance configuration of a plainly configured check: a servlet URL and
no custom options. -/
def instEx : InstanceCfg := ⟨some "http://host/wasPerfTool/servlet/perfservlet", [], [], [], []⟩

/-- Check constructed from `instEx`. -/
def cfgEx : CheckCfg := mkCheck instEx

/-- Instance configuration with no custom queries and with the unit
`PER_SECOND` in `custom_queries_units_gauge`. -/
def instUnits : InstanceCfg := ⟨some "http://host/servlet", [], ["PER_SECOND"], [], []⟩

/-- Check constructed from `instUnits`. -/
def cfgUnits : CheckCfg := mkCheck instUnits

/-- Leaf element of the monotonic-count type whose `unit` is `PER_SECOND`. -/
def leafPerSecond : StatNode :=
  .mk "CountStatistic" [("name", "reqs"), ("unit", "PER_SECOND"), ("value", "3")] []

/-- Leaf element of the monotonic-count type without a `unit` attribute. -/
def leafPlain : StatNode :=
  .mk "CountStatistic" [("name", "requestCount"), ("value", "42")] []

/-- Instance configuration with one custom query (category `My Stats`, metric
pfx `mystats`, one tag key) and the unit `PER_SECOND` in the gauge set. -/
def instCustom : InstanceCfg :=
  ⟨some "http://host/servlet", [⟨"My Stats", "mystats", ["tk0"]⟩], ["PER_SECOND"], [], []⟩

end IbmWas

open Sched IbmWas

theorem dlookup_nil {α : Type} (k : String) :
    dlookup ([] : List (String × α)) k = none := rfl

theorem dlookup_cons {α : Type} (p : String × α) (d : List (String × α)) (k : String) :
    dlookup (p :: d) k = if p.1 == k then some p.2 else dlookup d k := rfl

theorem dlookup_append {α : Type} (d e : List (String × α)) (k : String) :
    dlookup (d ++ e) k = (dlookup d k).or (dlookup e k) := by
  induction d with
  | nil =>
    rw [List.nil_append, dlookup_nil]
    cases dlookup e k <;> simp [Option.or]
  | cons p d ih =>
    rw [List.cons_append, dlookup_cons, dlookup_cons]
    by_cases h : (p.1 == k) = true
    · simp [h, Option.or]
    · simp [h, ih]

theorem dlookup_isSome_of_any {α : Type} (d : List (String × α)) (k : String)
    (hany : d.any (fun p => p.1 == k) = true) : (dlookup d k).isSome := by
  induction d with
  | nil => simp at hany
  | cons p d ih =>
    rw [dlookup_cons]
    by_cases h : (p.1 == k) = true
    · simp [h]
    · simp only [List.any_cons, h, Bool.false_or] at hany
      simp [h, ih hany]

theorem dlookup_eq_none_of_not_any {α : Type} (d : List (String × α)) (k : String)
    (hany : d.any (fun p => p.1 == k) = false) : dlookup d k = none := by
  induction d with
  | nil => rfl
  | cons p d ih =>
    simp only [List.any_cons, Bool.or_eq_false_iff] at hany
    rw [dlookup_cons, if_neg (by simp [hany.1]), ih hany.2]

theorem dlookup_map_overwrite {α : Type} (d : List (String × α)) (k : String) (v : α)
    (k' : String) :
    dlookup (d.map (fun p => if p.1 == k then (k, v) else p)) k'
      = if k' = k then (dlookup d k).map (fun _ => v) else dlookup d k' := by
  induction d with
  | nil => by_cases h : k' = k <;> simp [dlookup_nil, h]
  | cons p d ih =>
    simp only [beq_iff_eq] at ih
    by_cases hpk : (p.1 == k) = true
    · have hp1 : p.1 = k := beq_iff_eq.mp hpk
      by_cases hk : k' = k
      · subst hk
        simp [List.map_cons, dlookup_cons, hp1]
      · have hk2 : ¬ k = k' := fun hh => hk hh.symm
        have hpk' : ¬ p.1 = k' := by rw [hp1]; exact hk2
        simp [List.map_cons, dlookup_cons, hp1, hk, hk2, hpk', ih]
    · have hp1 : ¬ p.1 = k := fun hh => hpk (beq_iff_eq.mpr hh)
      by_cases hk : k' = k
      · subst hk
        simp [List.map_cons, dlookup_cons, hp1, ih]
      · simp [List.map_cons, dlookup_cons, hp1, hk, ih]

theorem dlookup_dinsert {α : Type} (d : List (String × α)) (k : String) (v : α)
    (k' : String) :
    dlookup (dinsert d k v) k' = if k' = k then some v else dlookup d k' := by
  unfold dinsert
  by_cases hany : d.any (fun p => p.1 == k) = true
  · rw [if_pos hany, dlookup_map_overwrite]
    by_cases hk : k' = k
    · rw [if_pos hk, if_pos hk]
      subst hk
      have h := dlookup_isSome_of_any d k' hany
      cases hval : dlookup d k' with
      | none => rw [hval] at h; cases h
      | some w => simp
    · rw [if_neg hk, if_neg hk]
  · rw [if_neg hany, dlookup_append]
    have hany' : d.any (fun p => p.1 == k) = false := by
      cases h2 : d.any (fun p => p.1 == k)
      · rfl
      · exact absurd h2 hany
    have hd : dlookup d k = none := dlookup_eq_none_of_not_any d k hany'
    by_cases hk : k' = k
    · subst hk
      simp [hd, dlookup_cons, dlookup_nil, Option.or]
    · have h1 : ((k : String) == k') = false :=
        beq_eq_false_iff_ne.mpr (fun hh => hk hh.symm)
      rw [if_neg hk]
      rw [show dlookup [(k, v)] k' = none by simp [dlookup_cons, dlookup_nil, h1]]
      cases dlookup d k' <;> simp [Option.or]

theorem rlookup_dinsert {α : Type} (d : List (String × α)) (k : String) (v : α)
    (k' : String) :
    rlookup (dinsert d k v) k' = if k' = k then some v else rlookup d k' := by
  unfold dinsert rlookup
  by_cases hany : d.any (fun p => p.1 == k) = true
  · rw [if_pos hany, ← List.map_reverse, dlookup_map_overwrite]
    by_cases hk : k' = k
    · rw [if_pos hk, if_pos hk]
      subst hk
      have hany' : d.reverse.any (fun p => p.1 == k') = true := by
        simp only [List.any_eq_true] at hany ⊢
        obtain ⟨p, hp, hpk⟩ := hany
        exact ⟨p, List.mem_reverse.mpr hp, hpk⟩
      have h := dlookup_isSome_of_any d.reverse k' hany'
      cases hval : dlookup d.reverse k' with
      | none => rw [hval] at h; cases h
      | some w => simp
    · rw [if_neg hk, if_neg hk]
  · rw [if_neg hany, List.reverse_append]
    simp only [List.reverse_cons, List.reverse_nil, List.nil_append, List.singleton_append]
    rw [dlookup_cons]
    by_cases hk : k' = k
    · rw [if_pos hk, if_pos (beq_iff_eq.mpr hk.symm)]
    · rw [if_neg hk, if_neg (by simpa using beq_eq_false_iff_ne.mpr (fun hh : k = k' => hk hh.symm))]

theorem rlookup_cons {α : Type} (p : String × α) (d : List (String × α)) (k : String) :
    rlookup (p :: d) k = (rlookup d k).or (if p.1 == k then some p.2 else none) := by
  unfold rlookup
  rw [List.reverse_cons, dlookup_append]
  by_cases h : (p.1 == k) = true <;>
    simp [h, dlookup_cons, dlookup_nil]

theorem dlookup_foldl_dinsert {α : Type} (ps : List (String × α))
    (a : List (String × α)) (k : String) :
    dlookup (ps.foldl (fun d p => dinsert d p.1 p.2) a) k
      = (rlookup ps k).elim (dlookup a k) some := by
  induction ps generalizing a with
  | nil => simp [rlookup, dlookup_nil]
  | cons p ps ih =>
    rw [List.foldl_cons, ih, rlookup_cons, dlookup_dinsert]
    cases rlookup ps k with
    | some v => simp [Option.or]
    | none =>
      by_cases h : (p.1 == k) = true
      · have hk : k = p.1 := (beq_iff_eq.mp h).symm
        simp [h, hk, Option.or]
      · have hk : ¬ k = p.1 := fun hh => by simp [beq_iff_eq, hh.symm] at h
        simp [h, hk, Option.or]

theorem rlookup_foldl_dinsert {α : Type} (ps : List (String × α))
    (a : List (String × α)) (k : String) :
    rlookup (ps.foldl (fun d p => dinsert d p.1 p.2) a) k
      = (rlookup ps k).elim (rlookup a k) some := by
  induction ps generalizing a with
  | nil => simp [rlookup, dlookup_nil]
  | cons p ps ih =>
    rw [List.foldl_cons, ih, rlookup_cons, rlookup_dinsert]
    cases rlookup ps k with
    | some v => simp [Option.or]
    | none =>
      by_cases h : (p.1 == k) = true
      · have hk : k = p.1 := (beq_iff_eq.mp h).symm
        simp [h, hk, Option.or]
      · have hk : ¬ k = p.1 := fun hh => by simp [beq_iff_eq, hh.symm] at h
        simp [h, hk, Option.or]

theorem acq_foldl (qs : List CustomQuery) (a : List (String × String))
    (b : List (String × List String)) (c : List (String × Bool)) :
    qs.foldl
      (fun acc q =>
        (dinsert acc.1 q.stat q.metric_pfx,
         dinsert acc.2.1 q.metric_pfx q.tag_keys,
         dinsert acc.2.2 q.stat true)) (a, b, c)
    = (qs.foldl (fun d q => dinsert d q.stat q.metric_pfx) a,
       qs.foldl (fun d q => dinsert d q.metric_pfx q.tag_keys) b,
       qs.foldl (fun d q => dinsert d q.stat true) c) := by
  induction qs generalizing a b c with
  | nil => rfl
  | cons q qs ih => simp [List.foldl_cons, ih]

theorem dlookup_map_general {β α : Type} (f : β → String × α) (m : List β) (k : String) :
    dlookup (m.map f) k = (m.find? (fun q => (f q).1 == k)).map (fun q => (f q).2) := by
  induction m with
  | nil => rfl
  | cons q m ih =>
    rw [List.map_cons, dlookup_cons]
    by_cases h : ((f q).1 == k) = true
    · rw [if_pos h]
      simp [List.find?, h]
    · rw [if_neg (by simpa using h)]
      simp [List.find?, h, ih]

theorem rlookup_map {β α : Type} (f : β → String × α) (l : List β) (k : String) :
    rlookup (l.map f) k
      = (l.reverse.find? (fun q => (f q).1 == k)).map (fun q => (f q).2) := by
  unfold rlookup
  rw [← List.map_reverse, dlookup_map_general]

theorem dlookup_dmerge_dict {α : Type} (a : List (String × α))
    (ps : List (String × α)) (k : String) :
    dlookup (dmerge a (ps.foldl (fun d p => dinsert d p.1 p.2) [])) k
      = (rlookup ps k).elim (dlookup a k) some := by
  unfold dmerge
  rw [dlookup_foldl_dinsert, rlookup_foldl_dinsert]
  cases rlookup ps k <;> simp [rlookup, dlookup_nil]

theorem mkCheck_metric_categories (inst : InstanceCfg) :
    (mkCheck inst).metric_categories
      = dmerge METRIC_CATEGORIES
          (inst.custom_queries.foldl (fun d q => dinsert d q.stat q.metric_pfx) []) := by
  simp only [mkCheck, append_custom_queries, acq_foldl]

theorem mkCheck_nested_tags (inst : InstanceCfg) :
    (mkCheck inst).nested_tags
      = dmerge NESTED_TAGS
          (inst.custom_queries.foldl (fun d q => dinsert d q.metric_pfx q.tag_keys) []) := by
  simp only [mkCheck, append_custom_queries, acq_foldl]

theorem recursionTags_eq_spec (cfg : CheckCfg) (pfx : String) (tags : List String)
    (lvl : Nat) (child : StatNode) :
    recursionTags cfg pfx tags lvl child
      = match (dlookup cfg.nested_tags pfx).bind (fun l => l[lvl]?) with
        | some key => tags ++ [key ++ ":" ++ pyStr (child.get "name")]
        | none => tags := by
  unfold recursionTags
  cases dlookup cfg.nested_tags pfx with
  | none => rfl
  | some l =>
    dsimp only
    by_cases h : lvl < l.length
    · rw [if_pos h]
      simp [List.getElem?_eq_getElem h, List.getD_eq_getElem?_getD]
    · rw [if_neg h]
      simp [List.getElem?_eq_none (show l.length ≤ lvl by omega)]

theorem mvf_value (t : String) (h : (METRIC_VALUE_FIELDS t).isSome) :
    METRIC_VALUE_FIELDS t = some "value" := by
  unfold METRIC_VALUE_FIELDS at h ⊢
  split at h <;> simp_all

theorem metric_type_total (t : String) (h : (METRIC_VALUE_FIELDS t).isSome) :
    ∃ k, metric_type_mapping t = some k := by
  unfold METRIC_VALUE_FIELDS at h
  split at h <;> simp_all [metric_type_mapping]

theorem mem_keys_of_dlookup_isSome {α : Type} (d : List (String × α)) (k : String)
    (h : (dlookup d k).isSome) : k ∈ d.map Prod.fst := by
  induction d with
  | nil => simp [dlookup] at h
  | cons p d ih =>
    rw [dlookup_cons] at h
    by_cases hp : (p.1 == k) = true
    · have : p.1 = k := beq_iff_eq.mp hp
      simp [← this]
    · rw [if_neg (by simpa using hp)] at h
      simp [ih h]

theorem collection_length (interval : Int) (ts : Option Int)
    (envs : List Sched.CycleEnv)
    (hstop : ∀ e ∈ envs, e.stop_set = false) :
    (Sched.collection interval ts envs).1.length = envs.length := by
  induction envs generalizing ts with
  | nil => rfl
  | cons e rest ih =>
    have he : e.stop_set = false := hstop e (List.mem_cons_self e rest)
    simp only [Sched.collection]
    rw [if_neg (by simp [he])]
    simp only [List.length_cons]
    rw [ih (Sched.runCycle interval ts e).1
      (fun e' he' => hstop e' (List.mem_cons_of_mem e he'))]

theorem runCycle_logged (interval : Int) (ts : Option Int) (e : Sched.CycleEnv) :
    (Sched.runCycle interval ts e).2.logged_exception
      = (Sched.metadataDue interval ts e.now && e.meta_raises
          || e.checks_raise || e.push_raises) := by
  unfold Sched.runCycle
  by_cases hd : Sched.metadataDue interval ts e.now <;>
    by_cases h1 : e.meta_raises <;>
    by_cases h2 : e.checks_raise <;>
    by_cases h3 : e.push_raises <;>
    simp [hd, h1, h2, h3]

theorem runCycle_slept (interval : Int) (ts : Option Int) (e : Sched.CycleEnv) :
    (Sched.runCycle interval ts e).2.slept = true := by
  unfold Sched.runCycle
  by_cases hd : Sched.metadataDue interval ts e.now <;>
    by_cases h1 : e.meta_raises <;>
    by_cases h2 : e.checks_raise <;>
    by_cases h3 : e.push_raises <;>
    simp [hd, h1, h2, h3]

theorem runCycle_meta_raises (interval : Int) (ts : Option Int) (e : Sched.CycleEnv)
    (hmeta : e.meta_raises = true) :
    (Sched.runCycle interval ts e).1 = ts
    ∧ (Sched.runCycle interval ts e).2.submitted = none := by
  unfold Sched.runCycle
  by_cases hd : Sched.metadataDue interval ts e.now <;>
    by_cases h2 : e.checks_raise <;>
    by_cases h3 : e.push_raises <;>
    simp [hd, hmeta, h2, h3]

theorem collection_attempted_all_raise (interval : Int)
    (envs : List Sched.CycleEnv)
    (hall : ∀ e' ∈ envs, e'.meta_raises = true ∧ e'.stop_set = false) :
    ∀ lg ∈ (Sched.collection interval none envs).1, lg.attempted = some true := by
  induction envs with
  | nil => intro lg hlg; simp [Sched.collection] at hlg
  | cons e rest ih =>
    have he := hall e (List.mem_cons_self e rest)
    intro lg hlg
    simp only [Sched.collection] at hlg
    rw [if_neg (by simp [he.2])] at hlg
    have hrc : Sched.runCycle interval none e
        = (none, ⟨some true, none, false, false, true, true⟩) := by
      unfold Sched.runCycle
      simp [Sched.metadataDue, he.1]
    rw [hrc] at hlg
    rcases List.mem_cons.mp hlg with h | h
    · rw [h]
    · exact ih (fun e' he' => hall e' (List.mem_cons_of_mem e he')) lg h

theorem processChildren_eq_specWalkChildren (cfg : CheckCfg) :
    ∀ (n : Nat) (cs : List StatNode), sizeOf cs ≤ n →
      ∀ (pfx : String) (tags : List String) (lvl : Nat),
        processChildren cfg cs pfx tags lvl = specWalkChildren cfg cs pfx tags lvl := by
  intro n
  induction n with
  | zero =>
    intro cs h
    cases cs with
    | nil => intro pfx tags lvl; rfl
    | cons c rest =>
      exfalso
      simp at h
  | succ n ih =>
    intro cs h pfx tags lvl
    cases cs with
    | nil => rfl
    | cons c rest =>
      cases c with
      | mk t a ch =>
        simp only [List.cons.sizeOf_spec, StatNode.mk.sizeOf_spec] at h
        have hch : sizeOf ch ≤ n := by omega
        have hrest : sizeOf rest ≤ n := by omega
        simp only [processChildren, specWalkChildren]
        rw [ih rest hrest pfx tags lvl]
        congr 1
        by_cases hleaf : (METRIC_VALUE_FIELDS (StatNode.mk t a ch).tag).isSome = true
        · rw [if_pos hleaf, if_pos hleaf]
        · rw [if_neg hleaf, if_neg hleaf]
          by_cases hcat : (StatNode.mk t a ch).tag ∈ CATEGORY_FIELDS
          · rw [if_pos hcat, if_pos hcat]
            simp only [process_stats, specWalk]
            rw [recursionTags_eq_spec]
            exact ih ch hch pfx _ (lvl + 1)
          · rw [if_neg hcat, if_neg hcat]

theorem process_stats_eq_specWalk (cfg : CheckCfg) (stats : StatNode)
    (pfx : String) (tags : List String) (lvl : Nat) :
    process_stats cfg stats pfx tags lvl = specWalk cfg stats pfx tags lvl := by
  cases stats with
  | mk t a ch =>
    simp only [process_stats, specWalk]
    exact processChildren_eq_specWalkChildren cfg (sizeOf ch) ch (le_refl _) pfx tags lvl

theorem runCycle_due_no_raise (interval : Int) (ts : Option Int) (e : Sched.CycleEnv)
    (hdue : Sched.metadataDue interval ts e.now = true) (hm : e.meta_raises = false) :
    (Sched.runCycle interval ts e).1 = some e.now
    ∧ (Sched.runCycle interval ts e).2.submitted = some ts.isNone := by
  unfold Sched.runCycle
  by_cases h2 : e.checks_raise <;> by_cases h3 : e.push_raises <;>
    simp [hdue, hm, h2, h3]

theorem runCycle_due_attempted (interval : Int) (ts : Option Int) (e : Sched.CycleEnv)
    (hdue : Sched.metadataDue interval ts e.now = true) :
    (Sched.runCycle interval ts e).2.attempted = some ts.isNone := by
  unfold Sched.runCycle
  by_cases h1 : e.meta_raises <;> by_cases h2 : e.checks_raise <;>
    by_cases h3 : e.push_raises <;> simp [hdue, h1, h2, h3]

theorem runCycle_not_due (interval : Int) (ts : Option Int) (e : Sched.CycleEnv)
    (hdue : Sched.metadataDue interval ts e.now = false) :
    (Sched.runCycle interval ts e).1 = ts
    ∧ (Sched.runCycle interval ts e).2.attempted = none
    ∧ (Sched.runCycle interval ts e).2.submitted = none := by
  unfold Sched.runCycle
  by_cases h2 : e.checks_raise <;> by_cases h3 : e.push_raises <;>
    simp [hdue, h2, h3]

theorem collection_slept (interval : Int) (ts : Option Int)
    (envs : List Sched.CycleEnv) (lg : Sched.CycleLog)
    (hlg : lg ∈ (Sched.collection interval ts envs).1) : lg.slept = true := by
  induction envs generalizing ts with
  | nil => simp [Sched.collection] at hlg
  | cons e rest ih =>
    simp only [Sched.collection] at hlg
    by_cases hs : e.stop_set = true
    · rw [if_pos hs] at hlg
      simp at hlg
    · rw [if_neg hs] at hlg
      rcases List.mem_cons.mp hlg with h | h
      · rw [h]; exact runCycle_slept interval ts e
      · exact ih (Sched.runCycle interval ts e).1 h

/-- C3: in every scheduler cycle in which metadata handling, the check batch,
or serialize-and-push raises, the exception is caught and logged inside the
loop (`logged_exception` is set exactly when a step raised), the fixed
inter-cycle delay still elapses (`slept` always holds), and the next cycle
executes: with the stop flag unset throughout, the trace executes every cycle
of the environment list, so no exception terminates the loop. -/
theorem C3_scheduler_fault_isolation (interval : Int) (ts ts' : Option Int)
    (envs : List Sched.CycleEnv) (e : Sched.CycleEnv)
    (hstop : ∀ e' ∈ envs, e'.stop_set = false) :
    (Sched.collection interval ts envs).1.length = envs.length
    ∧ (Sched.runCycle interval ts' e).2.logged_exception
        = (Sched.metadataDue interval ts' e.now && e.meta_raises
            || e.checks_raise || e.push_raises)
    ∧ (Sched.runCycle interval ts' e).2.slept = true :=
  ⟨collection_length interval ts envs hstop,
   runCycle_logged interval ts' e,
   runCycle_slept interval ts' e⟩

/-- Witness for C3: a two-cycle trace whose first cycle's metadata submission
raises still executes both cycles; a cycle whose check batch raises logs the
exception and sleeps. -/
theorem C3_scheduler_fault_isolation_witness :
    (Sched.collection 15 none
        [⟨0, false, true, false, false⟩, ⟨20, false, false, true, false⟩]).1.length = 2
    ∧ (Sched.runCycle 15 (some 0) ⟨20, false, false, true, false⟩).2.logged_exception = true
    ∧ (Sched.runCycle 15 (some 0) ⟨20, false, false, true, false⟩).2.slept = true := by
  exact C3_scheduler_fault_isolation 15 none (some 0)
    [⟨0, false, true, false, false⟩, ⟨20, false, false, true, false⟩]
    ⟨20, false, false, true, false⟩ (by decide)

/-- C4: on the very first cycle metadata is due and is submitted with the
start-event flag true and the timestamp recorded; on a later cycle before the
interval has elapsed since the recorded timestamp, metadata is neither
attempted nor submitted and the timestamp is unchanged; once the interval has
elapsed, metadata is resubmitted with the start-event flag false and the
timestamp is recorded. -/
theorem C4_metadata_cadence (interval : Int) (ts : Int)
    (e1 e2 e3 e4 : Sched.CycleEnv)
    (h1 : e1.meta_raises = false)
    (h2 : e2.now - ts < interval)
    (h3 : e3.now - ts ≥ interval) (h3m : e3.meta_raises = false) :
    ((Sched.runCycle interval none e1).1 = some e1.now
      ∧ (Sched.runCycle interval none e1).2.submitted = some true)
    ∧ (Sched.runCycle interval none e4).2.attempted = some true
    ∧ ((Sched.runCycle interval (some ts) e2).1 = some ts
      ∧ (Sched.runCycle interval (some ts) e2).2.attempted = none
      ∧ (Sched.runCycle interval (some ts) e2).2.submitted = none)
    ∧ ((Sched.runCycle interval (some ts) e3).1 = some e3.now
      ∧ (Sched.runCycle interval (some ts) e3).2.submitted = some false) := by
  have hdue1 : Sched.metadataDue interval none e1.now = true := rfl
  have hdue4 : Sched.metadataDue interval none e4.now = true := rfl
  have hdue2 : Sched.metadataDue interval (some ts) e2.now = false := by
    simp [Sched.metadataDue]; omega
  have hdue3 : Sched.metadataDue interval (some ts) e3.now = true := by
    simp [Sched.metadataDue]; omega
  refine ⟨⟨(runCycle_due_no_raise interval none e1 hdue1 h1).1, ?_⟩,
    ?_, runCycle_not_due interval (some ts) e2 hdue2,
    ⟨(runCycle_due_no_raise interval (some ts) e3 hdue3 h3m).1, ?_⟩⟩
  · exact (runCycle_due_no_raise interval none e1 hdue1 h1).2
  · exact runCycle_due_attempted interval none e4 hdue4
  · exact (runCycle_due_no_raise interval (some ts) e3 hdue3 h3m).2

/-- Witness for C4 at interval 10: first cycle at time 100 submits with flag
true; a cycle at time 105 (5 < 10 elapsed) does not attempt; a cycle at time
111 (11 >= 10 elapsed) resubmits with flag false. -/
theorem C4_metadata_cadence_witness :
    ((Sched.runCycle 10 none ⟨100, false, false, false, false⟩).1 = some 100
      ∧ (Sched.runCycle 10 none ⟨100, false, false, false, false⟩).2.submitted = some true)
    ∧ (Sched.runCycle 10 none ⟨100, false, true, false, false⟩).2.attempted = some true
    ∧ ((Sched.runCycle 10 (some 100) ⟨105, false, false, false, false⟩).1 = some 100
      ∧ (Sched.runCycle 10 (some 100) ⟨105, false, false, false, false⟩).2.attempted = none
      ∧ (Sched.runCycle 10 (some 100) ⟨105, false, false, false, false⟩).2.submitted = none)
    ∧ ((Sched.runCycle 10 (some 100) ⟨111, false, false, false, false⟩).1 = some 111
      ∧ (Sched.runCycle 10 (some 100) ⟨111, false, false, false, false⟩).2.submitted = some false) := by
  exact C4_metadata_cadence 10 100
    ⟨100, false, false, false, false⟩ ⟨105, false, false, false, false⟩
    ⟨111, false, false, false, false⟩ ⟨100, false, true, false, false⟩
    (by decide) (by decide) (by decide) (by decide)

/-- C8: `stop` only sets the cancellation flag (the recorded metadata
timestamp is unchanged), it is idempotent, the flag is observed at loop-top
and once observed set the loop executes no further cycle, and every executed
cycle ends with the full inter-cycle sleep, which bounds `join` by the
in-flight cycle plus one delay. -/
theorem C8_stop_semantics (s : Sched.RunnerState) (interval : Int)
    (ts ts2 : Option Int) (e : Sched.CycleEnv) (rest envs : List Sched.CycleEnv)
    (lg : Sched.CycleLog)
    (hset : e.stop_set = true)
    (hlg : lg ∈ (Sched.collection interval ts2 envs).1) :
    Sched.stop s = ⟨true, s.meta_ts⟩
    ∧ Sched.stop (Sched.stop s) = Sched.stop s
    ∧ Sched.collection interval ts (e :: rest) = ([], ts)
    ∧ lg.slept = true := by
  refine ⟨rfl, rfl, ?_, collection_slept interval ts2 envs lg hlg⟩
  simp [Sched.collection, hset]

/-- Witness for C8: a concrete runner state, a trace whose first environment
has the flag observed set, and an executed cycle's log. -/
theorem C8_stop_semantics_witness :
    Sched.stop ⟨false, some 7⟩ = (⟨true, some 7⟩ : Sched.RunnerState)
    ∧ Sched.stop (Sched.stop ⟨false, some 7⟩) = Sched.stop ⟨false, some 7⟩
    ∧ Sched.collection 10 (some 3) [⟨50, true, false, false, false⟩, ⟨60, true, false, false, false⟩]
        = ([], some 3)
    ∧ (⟨some true, some true, true, true, false, true⟩ : Sched.CycleLog).slept = true := by
  exact C8_stop_semantics ⟨false, some 7⟩ 10 (some 3) none
    ⟨50, true, false, false, false⟩ [⟨60, true, false, false, false⟩]
    [⟨0, false, false, false, false⟩]
    ⟨some true, some true, true, true, false, true⟩ (by decide) (by decide)

/-- C10: when building or submitting the metadata payload raises, the
recorded timestamp is unchanged and nothing is recorded as submitted; along
any trace from the never-submitted state in which every cycle's metadata step
raises, every cycle attempts metadata again with the start-event flag still
true. -/
theorem C10_timestamp_only_on_success (interval : Int) (ts : Option Int)
    (e : Sched.CycleEnv) (envs : List Sched.CycleEnv) (lg : Sched.CycleLog)
    (hmeta : e.meta_raises = true)
    (hall : ∀ e' ∈ envs, e'.meta_raises = true ∧ e'.stop_set = false)
    (hlg : lg ∈ (Sched.collection interval none envs).1) :
    (Sched.runCycle interval ts e).1 = ts
    ∧ (Sched.runCycle interval ts e).2.submitted = none
    ∧ lg.attempted = some true :=
  ⟨(runCycle_meta_raises interval ts e hmeta).1,
   (runCycle_meta_raises interval ts e hmeta).2,
   collection_attempted_all_raise interval envs hall lg hlg⟩

/-- Witness for C10: a cycle at time 5 with a recorded timestamp 0 and a
raising metadata step keeps the timestamp; along a two-cycle all-raising
trace from the never-submitted state, the second cycle still attempts with
flag true. -/
theorem C10_timestamp_only_on_success_witness :
    (Sched.runCycle 3 (some 0) ⟨5, false, true, false, false⟩).1 = some 0
    ∧ (Sched.runCycle 3 (some 0) ⟨5, false, true, false, false⟩).2.submitted = none
    ∧ (⟨some true, none, false, false, true, true⟩ : Sched.CycleLog).attempted = some true := by
  exact C10_timestamp_only_on_success 3 (some 0) ⟨5, false, true, false, false⟩
    [⟨1, false, true, false, false⟩, ⟨2, false, true, false, false⟩]
    ⟨some true, none, false, false, true, true⟩ (by decide) (by decide) (by decide)

theorem submit_metrics_eq (cfg : CheckCfg) (child : StatNode) (pfx : String)
    (tags : List String) (hleaf : (METRIC_VALUE_FIELDS child.tag).isSome = true) :
    submit_metrics cfg child pfx tags
      = Emission.metric (dispatchedKind cfg child pfx)
          (normalize (pyStr (child.get "name")) ("ibm_was." ++ pfx))
          (child.get "value") tags
        :: (if pfx = "jvm" then
              [Emission.metric MetricKind.GAUGE
                (normalize (pyStr (child.get "name")) ("ibm_was." ++ pfx) ++ "_gauge")
                (child.get "value") tags]
            else []) := by
  unfold submit_metrics
  rw [mvf_value child.tag hleaf]
  dsimp only
  by_cases hc : ((child.get "unit").elim false
        (fun u => cfg.custom_queries_units_gauge.contains u))
      ∧ pfx ∈ cfg.custom_stats ∧ child.tag = "CountStatistic"
  · rw [if_pos hc]
    unfold dispatchedKind
    rw [if_pos hc]
    simp [metric_type_mapping]
  · rw [if_neg hc]
    unfold dispatchedKind
    rw [if_neg hc]
    obtain ⟨k, hk⟩ := metric_type_total child.tag hleaf
    rw [hk]
    simp

/-- C1 (code bug): with a successful fetch returning a malformed document,
lxml raises `XMLSyntaxError`, which the `except ParseError` handler (the
`xml.etree.ElementTree` class imported at line 4) does not catch: the
exception escapes `check`, and the only emissions of the execution are the
OK service-check pair from the successful fetch — no CRITICAL service check,
no error log, no samples. -/
theorem C1_malformed_document_escapes :
    IbmWas.check cfgEx (.success .malformed)
      = (Except.error PyExn.XMLSyntaxError, submit_service_checks cfgEx SCStatus.OK)
    ∧ caughtByParseErrorHandler PyExn.XMLSyntaxError = false
    ∧ submit_service_checks cfgEx SCStatus.OK
        = [Emission.gaugeNum "ibm_was.can_connect" 1 cfgEx.service_check_tags,
           Emission.serviceCheck "ibm_was.can_connect" SCStatus.OK cfgEx.service_check_tags] :=
  ⟨rfl, rfl, rfl⟩

/-- C2 counterexample: for the plainly configured check and a connection
error, the CRITICAL service check is emitted but `check` itself ends with the
re-raised exception (`raise e` at `ibm_was.py` line 162) — an exception does
cross the check boundary. -/
theorem C2_counterexample_reraise :
    (IbmWas.check cfgEx .connectionError).1 = Except.error PyExn.ConnectionError
    ∧ Emission.serviceCheck "ibm_was.can_connect" SCStatus.CRITICAL cfgEx.service_check_tags
        ∈ (IbmWas.check cfgEx .connectionError).2 :=
  ⟨rfl, by decide⟩

/-- C2 (amended): on a fetch failure (connection error or non-2xx status)
the check emits the CRITICAL service check and re-raises the exception out of
`check`; the collector's batch (modelled from the spec) contains the failure
and itself returns normally, so nothing reaches the scheduler. -/
theorem C2_amended_fetch_failure (cfg : CheckCfg) (f : FetchOutcome)
    (runs : List (Except PyExn Unit × List Emission))
    (hurl : pyTruthy cfg.url = true)
    (hf : f = FetchOutcome.connectionError ∨ f = FetchOutcome.httpError) :
    Emission.serviceCheck "ibm_was.can_connect" SCStatus.CRITICAL cfg.service_check_tags
        ∈ (IbmWas.check cfg f).2
    ∧ ((IbmWas.check cfg f).1 = Except.error PyExn.ConnectionError
        ∨ (IbmWas.check cfg f).1 = Except.error PyExn.HTTPError)
    ∧ collector_run_checks (IbmWas.check cfg f :: runs)
        = (IbmWas.check cfg f).2 ++ collector_run_checks runs := by
  rcases hf with hf | hf <;> subst hf
  · have hck : IbmWas.check cfg .connectionError
        = (Except.error PyExn.ConnectionError,
           Emission.warnLog :: submit_service_checks cfg SCStatus.CRITICAL) := by
      unfold IbmWas.check
      rw [if_pos hurl]
      rfl
    rw [hck]
    refine ⟨?_, Or.inl rfl, ?_⟩
    · simp [submit_service_checks]
    · simp [collector_run_checks]
  · have hck : IbmWas.check cfg .httpError
        = (Except.error PyExn.HTTPError,
           Emission.warnLog :: submit_service_checks cfg SCStatus.CRITICAL) := by
      unfold IbmWas.check
      rw [if_pos hurl]
      rfl
    rw [hck]
    refine ⟨?_, Or.inr rfl, ?_⟩
    · simp [submit_service_checks]
    · simp [collector_run_checks]

/-- Witness for C2 (amended) at the plainly configured check, a connection
error and an otherwise empty batch. -/
theorem C2_amended_fetch_failure_witness :
    Emission.serviceCheck "ibm_was.can_connect" SCStatus.CRITICAL cfgEx.service_check_tags
        ∈ (IbmWas.check cfgEx .connectionError).2
    ∧ ((IbmWas.check cfgEx .connectionError).1 = Except.error PyExn.ConnectionError
        ∨ (IbmWas.check cfgEx .connectionError).1 = Except.error PyExn.HTTPError)
    ∧ collector_run_checks (IbmWas.check cfgEx .connectionError :: [])
        = (IbmWas.check cfgEx .connectionError).2 ++ collector_run_checks [] := by
  exact C2_amended_fetch_failure cfgEx .connectionError [] (by decide) (Or.inl rfl)

/-- C9: the category→prefix and prefix→tag-key maps of a constructed check
are the built-in defaults merged with the custom query descriptors,
last-write-wins: a category (resp. prefix) bound by some custom query reads
as the LAST such query's binding, anything else reads as the built-in map;
being fields of a value built once by `mkCheck` and only read afterwards,
they are never modified later. -/
theorem C9_construction_merge (inst : InstanceCfg) (cat pfx : String) :
    (dlookup (mkCheck inst).metric_categories cat
      = match inst.custom_queries.reverse.find? (fun q => q.stat == cat) with
        | some q => some q.metric_pfx
        | none => dlookup METRIC_CATEGORIES cat)
    ∧ (dlookup (mkCheck inst).nested_tags pfx
      = match inst.custom_queries.reverse.find? (fun q => q.metric_pfx == pfx) with
        | some q => some q.tag_keys
        | none => dlookup NESTED_TAGS pfx) := by
  constructor
  · rw [mkCheck_metric_categories,
      show inst.custom_queries.foldl (fun d q => dinsert d q.stat q.metric_pfx)
          ([] : List (String × String))
        = (inst.custom_queries.map (fun q => (q.stat, q.metric_pfx))).foldl
            (fun d p => dinsert d p.1 p.2) [] by rw [List.foldl_map],
      dlookup_dmerge_dict, rlookup_map]
    dsimp only
    cases hfind : inst.custom_queries.reverse.find? (fun q => q.stat == cat) with
    | none => simp
    | some q => simp
  · rw [mkCheck_nested_tags,
      show inst.custom_queries.foldl (fun d q => dinsert d q.metric_pfx q.tag_keys)
          ([] : List (String × List String))
        = (inst.custom_queries.map (fun q => (q.metric_pfx, q.tag_keys))).foldl
            (fun d p => dinsert d p.1 p.2) [] by rw [List.foldl_map],
      dlookup_dmerge_dict, rlookup_map]
    dsimp only
    cases hfind : inst.custom_queries.reverse.find? (fun q => q.metric_pfx == pfx) with
    | none => simp
    | some q => simp

/-- C5 counterexample: for a check with no custom queries, the built-in
`jvm` prefix is a key of the merged tag-key map and hence of `custom_stats`,
so a `CountStatistic` leaf with unit `PER_SECOND` under `jvm` is emitted as
GAUGE although `jvm` is not a custom-extended category and the unmodified
dispatch of `CountStatistic` is MONOTONIC_COUNT. -/
theorem C5_counterexample_builtin_remap :
    isCustomExtended instUnits.custom_queries "jvm" = false
    ∧ metric_type_mapping "CountStatistic" = some MetricKind.MONOTONIC_COUNT
    ∧ (submit_metrics cfgUnits leafPerSecond "jvm" []).head?
        = some (Emission.metric MetricKind.GAUGE "ibm_was.jvm.reqs" (some "3") []) :=
  ⟨rfl, rfl, rfl⟩

/-- C5 (amended): the remap to GAUGE happens exactly when the unit is in the
configured gauge set, the raw tag is the monotonic-count type, and the prefix
is a key of the merged prefix→tag-key map (`custom_stats = set(nested_tags)`,
which holds the built-in categories as well as the custom-extended ones);
when any of the three fails the kind is the unmodified dispatch of the raw
tag; every custom-extended prefix is in that key set. -/
theorem C5_amended_remap_condition (inst : InstanceCfg) (child : StatNode)
    (pfx : String) (tags : List String) (k : MetricKind)
    (hleaf : (METRIC_VALUE_FIELDS child.tag).isSome = true)
    (hk : metric_type_mapping child.tag = some k) :
    ((submit_metrics (mkCheck inst) child pfx tags).head?
      = some (Emission.metric (dispatchedKind (mkCheck inst) child pfx)
          (normalize (pyStr (child.get "name")) ("ibm_was." ++ pfx))
          (child.get "value") tags))
    ∧ dispatchedKind (mkCheck inst) child pfx
      = (if ((child.get "unit").elim false
              (fun u => (mkCheck inst).custom_queries_units_gauge.contains u))
            ∧ pfx ∈ (mkCheck inst).custom_stats ∧ child.tag = "CountStatistic"
         then MetricKind.GAUGE else k)
    ∧ (isCustomExtended inst.custom_queries pfx = true
        → pfx ∈ (mkCheck inst).custom_stats) := by
  refine ⟨?_, ?_, ?_⟩
  · rw [submit_metrics_eq (mkCheck inst) child pfx tags hleaf]
    rfl
  · unfold dispatchedKind
    rw [hk]
    rfl
  · intro hcx
    have hcs : (mkCheck inst).custom_stats = (mkCheck inst).nested_tags.map Prod.fst := by
      simp [mkCheck]
    rw [hcs]
    apply mem_keys_of_dlookup_isSome
    rw [mkCheck_nested_tags,
      show inst.custom_queries.foldl (fun d q => dinsert d q.metric_pfx q.tag_keys)
          ([] : List (String × List String))
        = (inst.custom_queries.map (fun q => (q.metric_pfx, q.tag_keys))).foldl
            (fun d p => dinsert d p.1 p.2) [] by rw [List.foldl_map],
      dlookup_dmerge_dict, rlookup_map]
    dsimp only
    obtain ⟨q, hqmem, hqp⟩ := List.any_eq_true.mp hcx
    cases hfind : inst.custom_queries.reverse.find? (fun q => q.metric_pfx == pfx) with
    | some q2 => simp
    | none =>
      exact absurd hqp (List.find?_eq_none.mp hfind q (List.mem_reverse.mpr hqmem))

/-- Witness for C5 (amended): the custom-extended prefix `mystats` with a
`PER_SECOND` `CountStatistic` leaf. -/
theorem C5_amended_remap_condition_witness :
    ((submit_metrics (mkCheck instCustom) leafPerSecond "mystats" []).head?
      = some (Emission.metric (dispatchedKind (mkCheck instCustom) leafPerSecond "mystats")
          (normalize (pyStr (leafPerSecond.get "name")) ("ibm_was." ++ "mystats"))
          (leafPerSecond.get "value") []))
    ∧ dispatchedKind (mkCheck instCustom) leafPerSecond "mystats"
      = (if ((leafPerSecond.get "unit").elim false
              (fun u => (mkCheck instCustom).custom_queries_units_gauge.contains u))
            ∧ "mystats" ∈ (mkCheck instCustom).custom_stats
            ∧ leafPerSecond.tag = "CountStatistic"
         then MetricKind.GAUGE else MetricKind.MONOTONIC_COUNT)
    ∧ (isCustomExtended instCustom.custom_queries "mystats" = true
        → "mystats" ∈ (mkCheck instCustom).custom_stats) := by
  exact C5_amended_remap_condition instCustom leafPerSecond "mystats" []
    MetricKind.MONOTONIC_COUNT (by decide) rfl

/-- C6: every leaf translated under the `jvm` prefix emits exactly two
samples — the dispatched sample under the normalized base name and, second, a
GAUGE under the base name plus the fixed suffix `_gauge` — both carrying the
same value and the same tags; every leaf under any other prefix emits exactly
one sample. -/
theorem C6_jvm_dual_emission (cfg : CheckCfg) (child : StatNode)
    (pfx : String) (tags : List String)
    (hleaf : (METRIC_VALUE_FIELDS child.tag).isSome = true)
    (_hname : (child.get "name").isSome = true) :
    submit_metrics cfg child pfx tags
      = Emission.metric (dispatchedKind cfg child pfx)
          (normalize (pyStr (child.get "name")) ("ibm_was." ++ pfx))
          (child.get "value") tags
        :: (if pfx = "jvm" then
              [Emission.metric MetricKind.GAUGE
                (normalize (pyStr (child.get "name")) ("ibm_was." ++ pfx) ++ "_gauge")
                (child.get "value") tags]
            else [])
    ∧ (submit_metrics cfg child pfx tags).length = (if pfx = "jvm" then 2 else 1) := by
  have h := submit_metrics_eq cfg child pfx tags hleaf
  refine ⟨h, ?_⟩
  rw [h]
  by_cases hj : pfx = "jvm" <;> simp [hj]

/-- Witness for C6: the spec's scenario leaf `requestCount` under `jvm`
yields the MONOTONIC_COUNT base sample and the `_gauge` GAUGE sample. -/
theorem C6_jvm_dual_emission_witness :
    submit_metrics cfgEx leafPlain "jvm" []
      = Emission.metric (dispatchedKind cfgEx leafPlain "jvm")
          (normalize (pyStr (leafPlain.get "name")) ("ibm_was." ++ "jvm"))
          (leafPlain.get "value") []
        :: (if "jvm" = "jvm" then
              [Emission.metric MetricKind.GAUGE
                (normalize (pyStr (leafPlain.get "name")) ("ibm_was." ++ "jvm") ++ "_gauge")
                (leafPlain.get "value") []]
            else [])
    ∧ (submit_metrics cfgEx leafPlain "jvm" []).length = (if "jvm" = "jvm" then 2 else 1) := by
  exact C6_jvm_dual_emission cfgEx leafPlain "jvm" [] (by decide) (by decide)

/-- C7: the source walk `process_stats` coincides, on every category element,
prefix, tag set and recursion level, with the walk transcribed from the
spec's wording (document order, leaf emission, category recursion at
depth+1), and the tag extension for a category child is exactly
`<tag-key-at-depth>:<child-name>` when the configured tag-key list has an
entry at the current depth and the unchanged tag set otherwise. -/
theorem C7_depth_first_tag_walk (cfg : CheckCfg) (stats child : StatNode)
    (pfx : String) (tags : List String) (lvl : Nat) :
    process_stats cfg stats pfx tags lvl = specWalk cfg stats pfx tags lvl
    ∧ recursionTags cfg pfx tags lvl child
      = (match (dlookup cfg.nested_tags pfx).bind (fun l => l[lvl]?) with
        | some key => tags ++ [key ++ ":" ++ pyStr (child.get "name")]
        | none => tags) :=
  ⟨process_stats_eq_specWalk cfg stats pfx tags lvl,
   recursionTags_eq_spec cfg pfx tags lvl child⟩
